import Mathlib

/-!
Verification of the Move reference-safety analyzer against its specification.

The development shallowly embeds:
* the path algebra of `language/borrow-set/src/paths.rs` (offsets, paths, `compare`);
* the reference records of `language/borrow-set/src/references.rs`;
* the borrow-set operations used by the set-based reference-safety analyzer
  (`language/bytecode-verifier/src/reference_safety2/abstract_state.rs`); the
  exact `BorrowMap` the analyzer links against is not part of the sources, so
  those operations are modelled from the specification (each such definition is
  marked `Modelled from the spec:`), on top of the path algebra and reference
  records that are in the sources;
* the reference-counted `BorrowSet` of `language/borrow-set/src/set.rs`
  (`new`, `make_copy`, `release`, the queries, `covers`, `join`);
* the analyzer-variant selector of
  `language/bytecode-verifier/src/code_unit_verifier.rs`.

Machine integers (`u16` local indices, `usize` ids and counters) are embedded
as `Nat`: every operation in the embedded code only increments counters or
compares indices, so no wrap-around behavior is observable.  The `Loc`
source-location type parameter is instantiated at `Unit`, exactly as the
analyzer instantiates it (`type BorrowSet = ... BorrowSet<(), CodeOffset,
Label>`); locations are not part of path equality in the sources
(`references.rs`, `impl PartialEq for BorrowPath`).
-/

/-- Label of an access-path offset, from `abstract_state.rs` (`enum Label`):
a parameter slot, a global resource, a local slot, or a field handle. -/
inductive Label where
  | parameter (i : Nat)
  | global (i : Nat)
  | local_ (i : Nat)
  | field (i : Nat)
deriving DecidableEq, Repr

/-- An offset of a path, from `paths.rs` (`enum Offset<Instr, Lbl>`): either a
concrete label or an existential (wildcard) tagged by the producing
instruction index and the ordinal of the result slot. -/
inductive Offset where
  | labeled (l : Label)
  | existential (instr : Nat) (slot : Nat)
deriving DecidableEq, Repr

/-- Result of comparing two paths, from `paths.rs` (`enum Ordering`). -/
inductive PathOrdering where
  | incomparable
  | leftExtendsRight
  | equal
  | rightExtendsLeft (ext : Offset)
deriving DecidableEq, Repr

namespace Paths

/-- The offset-by-offset loop of `Path::compare` in `paths.rs` (the
`while let` loop and the final match on the remainders): equal offsets are
consumed; two distinct offsets of the same kind are incomparable; a wildcard
against a label (either way) returns `RightExtendsLeft` carrying the
right-hand offset; when one side is exhausted the longer side extends the
shorter one. -/
def compareGo : List Offset → List Offset → PathOrdering
  | l :: ls, r :: rs =>
    match l, r with
    | .labeled a, .labeled b =>
      if a = b then compareGo ls rs else .incomparable
    | .existential i n, .existential j m =>
      if i = j ∧ n = m then compareGo ls rs else .incomparable
    | .existential _ _, .labeled b => .rightExtendsLeft (.labeled b)
    | .labeled _, .existential j m => .rightExtendsLeft (.existential j m)
  | _ :: _, [] => .leftExtendsRight
  | [], [] => .equal
  | [], r :: _ => .rightExtendsLeft r

/-- `Path::compare` from `paths.rs`.  A path starting with an existential is
incomparable with a path starting with a label (the check on `self.0[0]` and
`rhs.0[0]` before the loop); otherwise the offset loop decides.  The source
requires both paths to be non-empty (`satisfies_invariant`); on an empty path
the source indexes `self.0[0]` and fails, so the empty case here is an
unreachable placeholder. -/
def compare (lhs rhs : List Offset) : PathOrdering :=
  match lhs, rhs with
  | lOff :: _, rOff :: _ =>
    match lOff, rOff with
    | .existential _ _, .labeled _ => .incomparable
    | .labeled _, .existential _ _ => .incomparable
    | _, _ => compareGo lhs rhs
  | _, _ => .incomparable

/-- `Path::extend` from `paths.rs`: append one offset. -/
def extend (p : List Offset) (off : Offset) : List Offset := p ++ [off]

end Paths

/-- `BorrowPath` from `references.rs`: a path together with the source
location where it was added.  `Loc` is instantiated at `Unit` (as the
analyzer does); per the source, equality of `BorrowPath` is equality of the
`path` component only — with `Loc = Unit` that coincides with structural
equality. -/
structure BorrowPath where
  loc : Unit := ()
  path : List Offset
deriving DecidableEq, Repr

namespace BorrowPath

/-- `BorrowPath::initial` from `references.rs`. -/
def initial (loc : Unit) (off : Offset) : BorrowPath :=
  { loc := loc, path := [off] }

/-- `BorrowPath::extend` from `references.rs`. -/
def extend (bp : BorrowPath) (loc : Unit) (off : Offset) : BorrowPath :=
  { loc := loc, path := Paths.extend bp.path off }

/-- `BorrowPath::compare` from `references.rs`. -/
def compare (bp other : BorrowPath) : PathOrdering :=
  Paths.compare bp.path other.path

end BorrowPath

namespace Refs

/-- `Ref` from `references.rs`: the borrow information of a single reference —
a pinned bit, a mutable bit, and the set of paths the reference may denote.
The `BTreeSet` of paths is embedded as a duplicate-free list. -/
structure Ref where
  pinned : Bool
  mutable : Bool
  paths : List BorrowPath
deriving DecidableEq, Repr

/-- `BTreeSet::insert` on a path set: adds the path unless already present. -/
def insertPath (ps : List BorrowPath) (p : BorrowPath) : List BorrowPath :=
  if p ∈ ps then ps else ps ++ [p]

/-- `Ref::pinned` from `references.rs`: a pinned reference with either a
single initial single-label path or an empty path set. -/
def Ref.mkPinned (mutable : Bool) (init_offset : Option (Unit × Label)) : Ref :=
  { pinned := true
    mutable := mutable
    paths := match init_offset with
             | some (loc, lbl) => [BorrowPath.initial loc (.labeled lbl)]
             | none => [] }

/-- `Ref::new` from `references.rs`: a non-pinned reference. -/
def Ref.new (mutable : Bool) (paths : List BorrowPath) : Ref :=
  { pinned := false, mutable := mutable, paths := paths }

/-- `Ref::copy_paths` from `references.rs`: clone the path set, retagging the
source location (with `Loc = Unit` the retagging is the identity). -/
def Ref.copy_paths (r : Ref) (loc : Unit) : List BorrowPath :=
  r.paths.map (fun bp => { bp with loc := loc })

/-- `Ref::make_copy` from `references.rs`: a new non-pinned reference with the
same paths and the given mutability. -/
def Ref.make_copy (r : Ref) (loc : Unit) (mutable : Bool) : Ref :=
  { pinned := false, mutable := mutable, paths := r.copy_paths loc }

/-- `Ref::release_paths` from `references.rs` (pinned references only):
empty the path set. -/
def Ref.release_paths (r : Ref) : Ref :=
  { r with paths := [] }

/-- `Ref::add_paths` from `references.rs`: union the given paths in. -/
def Ref.add_paths (r : Ref) (additional : List BorrowPath) : Ref :=
  { r with paths := additional.foldl insertPath r.paths }

end Refs

/-- Conflict/parent query result, from `set.rs` (`struct Conflicts` /
`struct Parents`): references with an equal path, references extending at a
wildcard, and references extending at a concrete label.  The `BTreeSet` /
`BTreeMap` collections are embedded as lists; only membership and emptiness
of the components are consumed by the analyzer, which lists with possible
repetitions decide identically.  The `Loc` values stored in the maps carry no
information at `Loc = Unit` and are dropped. -/
structure Conflicts where
  equal : List Nat
  existential : List Nat
  labeled : List (Label × Nat)
deriving DecidableEq, Repr

/-- `Conflicts::is_empty` from `set.rs`: all three components are empty. -/
def Conflicts.isEmpty (c : Conflicts) : Bool :=
  c.equal.isEmpty && c.existential.isEmpty && c.labeled.isEmpty

/-- `Parents` from `set.rs` has the same shape as `Conflicts` (with the roles
of the two references swapped); it is embedded by the same structure. -/
abbrev Parents := Conflicts

/-- One classified conflict entry produced while scanning a pair of paths:
an equal path, a wildcard extension, or a labeled extension, carrying the id
of the other reference. -/
inductive CEntry where
  | ceq (id : Nat)
  | cexist (id : Nat)
  | clabeled (l : Label) (id : Nat)
deriving DecidableEq, Repr

/-- The reference id carried by a conflict entry. -/
def CEntry.cid : CEntry → Nat
  | .ceq i => i
  | .cexist i => i
  | .clabeled _ i => i

/-- Assemble a `Conflicts` record from a list of classified entries. -/
def mkConflicts (entries : List CEntry) : Conflicts :=
  { equal := entries.filterMap (fun t => match t with | .ceq i => some i | _ => none)
    existential := entries.filterMap (fun t => match t with | .cexist i => some i | _ => none)
    labeled := entries.filterMap (fun t => match t with | .clabeled l i => some (l, i) | _ => none) }

/-- Modelled from the spec: the borrow set used by the set-based analyzer
(`abstract_state.rs` imports it as `borrow_set::set::BorrowSet<(), CodeOffset,
Label>`; the crate version with that interface is not among the sources, only
its `paths.rs`/`references.rs` building blocks are).  Per spec §3: "an
ordered mapping from reference identifier to Reference, plus a monotonic
`next_id` counter"; the `BTreeMap` is embedded as an association list with
strictly increasing (hence unique) keys. -/
structure BorrowMap where
  map : List (Nat × Refs.Ref)
  next_id : Nat
deriving DecidableEq, Repr

namespace BorrowMap

/-- `BTreeMap` key lookup. -/
def lookupRef (m : List (Nat × Refs.Ref)) (id : Nat) : Option Refs.Ref :=
  (m.find? (fun e => e.1 == id)).map (·.2)

/-- Path set of a reference; the empty set when the id is absent (the source
panics on a dead id, which no analyzer call site reaches). -/
def pathsOf (s : BorrowMap) (id : Nat) : List BorrowPath :=
  ((lookupRef s.map id).map (·.paths)).getD []

/-- Modelled from the spec (§4.3 `is_mutable`, missing with the rest of the
map interface): the mutability bit of the reference. -/
def is_mutable (s : BorrowMap) (id : Nat) : Bool :=
  ((lookupRef s.map id).map (·.mutable)).getD false

/-- Modelled from the spec (§4.3 `is_pinned_released`, missing): true iff the
pinned reference's path set is empty. -/
def is_pinned_released (s : BorrowMap) (id : Nat) : Bool :=
  ((lookupRef s.map id).map (·.paths.isEmpty)).getD false

/-- Issue the next id for a new reference (spec §3: ids come from the
monotonic `next_id` counter). -/
def add_ref (s : BorrowMap) (r : Refs.Ref) : BorrowMap × Nat :=
  ({ map := s.map ++ [(s.next_id, r)], next_id := s.next_id + 1 }, s.next_id)

/-- Modelled from the spec (§4.3 `new`, missing): one pinned reference per
caller-supplied entry, ids contiguous from 0; returns the key-to-id map. -/
def new (initial_refs : List (Nat × Bool × Option (Unit × Label))) :
    BorrowMap × List (Nat × Nat) :=
  initial_refs.foldl
    (fun (acc : BorrowMap × List (Nat × Nat)) entry =>
      let (s, ids) := acc
      let (k, mutable, init_offset) := entry
      let (s', id) := s.add_ref (Refs.Ref.mkPinned mutable init_offset)
      (s', ids ++ [(k, id)]))
    ({ map := [], next_id := 0 }, [])

/-- Modelled from the spec (§4.2/§4.3 `make_copy`, missing): a new non-pinned
reference with the same paths and the given mutability (`Ref::make_copy` of
`references.rs`).  On a dead id the source panics; the state is returned
unchanged here (unreachable from the analyzer). -/
def make_copy (s : BorrowMap) (loc : Unit) (id : Nat) (mutable : Bool) :
    BorrowMap × Nat :=
  match lookupRef s.map id with
  | some r => s.add_ref (r.make_copy loc mutable)
  | none => (s, 0)

/-- Modelled from the spec (§4.3 the *extend* family, missing): union, over
all sources, of every source path extended by the given offset; if that union
is empty, a single path rooted at the offset (matching the in-source
`set.rs::extend`, which tests emptiness of the collected path set).  The new
reference is non-pinned. -/
def extendOp (s : BorrowMap) (sources : List Nat) (loc : Unit) (mutable : Bool)
    (off : Offset) : BorrowMap × Nat :=
  let paths :=
    (sources.flatMap (fun src => (s.pathsOf src).map (fun bp => bp.extend loc off))).foldl
      Refs.insertPath []
  let paths := if paths.isEmpty then [BorrowPath.initial loc off] else paths
  s.add_ref (Refs.Ref.new mutable paths)

/-- Modelled from the spec (§4.3 `extend_by_label`, missing). -/
def extend_by_label (s : BorrowMap) (sources : List Nat) (loc : Unit)
    (mutable : Bool) (lbl : Label) : BorrowMap × Nat :=
  s.extendOp sources loc mutable (.labeled lbl)

/-- Modelled from the spec (§4.3 `extend_by_unknown`, missing): extension by
a wildcard tagged with the producing instruction and result ordinal. -/
def extend_by_unknown (s : BorrowMap) (sources : List Nat) (loc : Unit)
    (mutable : Bool) (instr : Nat) (slot : Nat) : BorrowMap × Nat :=
  s.extendOp sources loc mutable (.existential instr slot)

/-- Modelled from the spec (§4.3 `release`, missing): a non-pinned reference
is removed; a pinned reference has its path set emptied
(`Ref::release_paths`). -/
def release (s : BorrowMap) (id : Nat) : BorrowMap :=
  match lookupRef s.map id with
  | none => s
  | some r =>
    if r.pinned then
      { s with map := s.map.map (fun e => if e.1 == id then (e.1, e.2.release_paths) else e) }
    else
      { s with map := s.map.filter (fun e => e.1 != id) }

/-- The classified entries underlying `borrowed_by`: for each path of `id`
and each path of every other (optionally mutability-filtered) reference,
classify `compare(path, other_path)` — `Equal` into `equal`,
`RightExtendsLeft` at a wildcard into `existential`, at a label into
`labeled`; `Incomparable` and `LeftExtendsRight` are dropped. -/
def conflictEntries (s : BorrowMap) (id : Nat) (only_mutable : Bool) : List CEntry :=
  let others := s.map.filter (fun e => e.1 != id && (!only_mutable || e.2.mutable))
  (s.pathsOf id).flatMap (fun p =>
    others.flatMap (fun e =>
      e.2.paths.filterMap (fun op =>
        match p.compare op with
        | .equal => some (CEntry.ceq e.1)
        | .rightExtendsLeft (.existential _ _) => some (CEntry.cexist e.1)
        | .rightExtendsLeft (.labeled l) => some (CEntry.clabeled l e.1)
        | _ => none)))

/-- Modelled from the spec (§4.3 `borrowed_by`, missing): the references
borrowing from `id`, partitioned by the kind of extension; the boolean
mutability filter is the form the analyzer passes (`/* only_mutable */`).
`id` itself is always excluded. -/
def borrowed_by (s : BorrowMap) (id : Nat) (only_mutable : Bool) : Conflicts :=
  mkConflicts (s.conflictEntries id only_mutable)

/-- Modelled from the spec (§4.3 `all_starting_with_label`, missing):
references some of whose paths begin with the given root label. -/
def all_starting_with_label (s : BorrowMap) (lbl : Label) : List Nat :=
  (s.map.filter (fun e =>
    e.2.paths.any (fun bp => bp.path.head? == some (.labeled lbl)))).map (·.1)

/-- Modelled from the spec (§4.3 `all_starting_with_predicate`, missing):
references some of whose paths begin with a root label matching the
predicate (a path starting with a wildcard has no root label and never
matches). -/
def all_starting_with_predicate (s : BorrowMap) (p : Label → Bool) : List Nat :=
  (s.map.filter (fun e =>
    e.2.paths.any (fun bp =>
      match bp.path.head? with
      | some (.labeled l) => p l
      | _ => false))).map (·.1)

/-- Does some path of `aps` cover `q` (relate as `Equal` or
`RightExtendsLeft`)?  The inner test of `covers`/`join` in `set.rs`. -/
def coversPath (aps : List BorrowPath) (q : BorrowPath) : Bool :=
  aps.any (fun sp =>
    match sp.compare q with
    | .equal => true
    | .rightExtendsLeft _ => true
    | _ => false)

/-- Modelled from the spec (§4.3 `covers`, missing; the same algorithm as the
in-source `set.rs::covers`): every path of every reference of `other` is
equal to or an extension of some path of the same reference in `s`.  The
source indexes `self.map[id]` and panics when `other` holds an id `s` lacks
(the consistent-world precondition); that case yields `false` here and is
unreachable from the analyzer. -/
def covers (s other : BorrowMap) : Bool :=
  other.map.all (fun e =>
    match lookupRef s.map e.1 with
    | none => false
    | some selfRef => e.2.paths.all (coversPath selfRef.paths))

/-- Modelled from the spec (§4.3 `join`, missing; the same algorithm as the
in-source `set.rs::join`): start from `s` and, for every reference of
`other`, add each path not covered by `s`'s paths for that reference; then
reset `next_id` to the map size (`set_next_id_after_join`).  An id of `other`
absent from `s` panics in the source (consistent-world precondition) and is
skipped here. -/
def join (s other : BorrowMap) : BorrowMap :=
  let m := other.map.foldl
    (fun acc e =>
      match lookupRef s.map e.1 with
      | none => acc
      | some selfRef =>
        let toAdd := e.2.paths.filter (fun q => !coversPath selfRef.paths q)
        toAdd.foldl
          (fun acc' q =>
            acc'.map (fun e' =>
              if e'.1 == e.1 then (e'.1, e'.2.add_paths [q]) else e'))
          acc)
    s.map
  { map := m, next_id := m.length }

/-- Modelled from the spec: `is_covered_by` (used by the driver's join at
`abstract_state.rs:538`) is missing with the rest of the map interface and is
not named in the spec, which only defines `covers` (§4.3); it is modelled by
its plain reading as the converse of `covers` — `s` is covered by `other`. -/
def is_covered_by (s other : BorrowMap) : Bool :=
  covers other s

end BorrowMap

/-- `AbstractValue` from `abstract_state.rs`: a reference (by id) or a
non-reference value. -/
inductive AbstractValue where
  | reference (id : Nat)
  | nonReference
deriving DecidableEq, Repr

/-- `AbstractValue::is_reference`. -/
def AbstractValue.is_reference : AbstractValue → Bool
  | .reference _ => true
  | .nonReference => false

/-- `AbstractValue::is_value`. -/
def AbstractValue.is_value (v : AbstractValue) : Bool :=
  !v.is_reference

/-- `AbstractValue::ref_id`. -/
def AbstractValue.ref_id : AbstractValue → Option Nat
  | .reference id => some id
  | .nonReference => none

/-- The status codes of `move_core_types::vm_status::StatusCode` used by the
set-based reference-safety analyzer. -/
inductive StatusCode where
  | COPYLOC_EXISTS_BORROW_ERROR
  | MOVELOC_EXISTS_BORROW_ERROR
  | STLOC_UNSAFE_TO_DESTROY_ERROR
  | READREF_EXISTS_MUTABLE_BORROW_ERROR
  | WRITEREF_EXISTS_BORROW_ERROR
  | GLOBAL_REFERENCE_ERROR
  | CALL_BORROWED_MUTABLE_REFERENCE_ERROR
  | RET_BORROWED_MUTABLE_REFERENCE_ERROR
  | UNSAFE_RET_LOCAL_OR_RESOURCE_STILL_BORROWED
deriving DecidableEq, Repr

/-- A failure of a transfer function: a `PartialVMError` with a status code
located at a function definition index and code offset
(`AbstractState::error`), or a violated `checked_verify!` runtime assertion
(a Rust panic). -/
inductive Failure where
  | vmError (status : StatusCode) (fidx : Nat) (offset : Nat)
  | panicked
deriving DecidableEq, Repr

/-- `PartialVMResult` from the error module: success or a failure. -/
abbrev MResult (α : Type) := Except Failure α

/-- `JoinResult` from `absint.rs`. -/
inductive JoinResult where
  | changed
  | unchanged
deriving DecidableEq, Repr

/-- `AbstractState` from `abstract_state.rs`: the current function definition
index (for error locations), the immutable map from reference-typed local
slots to their pinned reference ids, and the borrow set. -/
structure AbstractState where
  current_function : Option Nat
  locals : List (Nat × Nat)
  borrow_set : BorrowMap
deriving DecidableEq, Repr

namespace AbstractState

/-- `BTreeMap` lookup in the locals map. -/
def lookupLocal (locals : List (Nat × Nat)) (idx : Nat) : Option Nat :=
  (locals.find? (fun e => e.1 == idx)).map (·.2)

/-- `AbstractState::error`: a `PartialVMError` at the current function
(defaulting to index 0) and the given code offset. -/
def error (s : AbstractState) (status : StatusCode) (offset : Nat) : Failure :=
  .vmError status (s.current_function.getD 0) offset

/-- `AbstractState::is_writable` from `abstract_state.rs` (precondition in
the source: the reference is mutable): no immutable reference with an equal
path, and no extensions of any kind. -/
def is_writable (s : AbstractState) (id : Nat) : Bool :=
  let c := s.borrow_set.borrowed_by id false
  let has_imm_equal := c.equal.any (fun eid => !s.borrow_set.is_mutable eid)
  let has_extensions := !c.existential.isEmpty || !c.labeled.isEmpty
  !has_imm_equal && !has_extensions

/-- `AbstractState::is_readable` from `abstract_state.rs`: an immutable
reference is always readable; a mutable one requires no mutable wildcard
extension and — without a field — no mutable labeled extension at all, or —
at a field — no mutable extension at that field's label. -/
def is_readable (s : AbstractState) (id : Nat) (at_field_opt : Option Nat) : Bool :=
  let is_mutable := s.borrow_set.is_mutable id
  if !is_mutable then true
  else
    let c := s.borrow_set.borrowed_by id true
    let has_mut_extensions_at_unknown := !c.existential.isEmpty
    let has_mut_extensions_at_field :=
      match at_field_opt with
      | none => !c.labeled.isEmpty
      | some f => c.labeled.any (fun e => e.1 == Label.field f)
    !has_mut_extensions_at_unknown && !has_mut_extensions_at_field

/-- `AbstractState::is_local_borrowed` from `abstract_state.rs`. -/
def is_local_borrowed (s : AbstractState) (idx : Nat) : Bool :=
  !(s.borrow_set.all_starting_with_label (.local_ idx)).isEmpty

/-- `AbstractState::is_local_mutably_borrowed` from `abstract_state.rs`:
some mutable reference starts at the local's label. -/
def is_local_mutably_borrowed (s : AbstractState) (idx : Nat) : Bool :=
  ((s.borrow_set.all_starting_with_label (.local_ idx)).filter
    (fun id => s.borrow_set.is_mutable id)).isEmpty == false

/-- `AbstractState::is_global_borrowed` from `abstract_state.rs`. -/
def is_global_borrowed (s : AbstractState) (resource : Nat) : Bool :=
  !(s.borrow_set.all_starting_with_label (.global resource)).isEmpty

/-- `AbstractState::is_frame_safe_to_destroy` from `abstract_state.rs`,
embedded exactly as written: the set of references whose paths start with a
`Global` or a `Field` label (the source's
`matches!(lbl, Label::Global(_) | Label::Field(_))`) is empty.  Note the
source's own doc comment and the binding's name
(`local_or_global_rooted_refs`) describe a local-or-global check instead. -/
def is_frame_safe_to_destroy (s : AbstractState) : Bool :=
  (s.borrow_set.all_starting_with_predicate (fun lbl =>
    match lbl with
    | .global _ => true
    | .field _ => true
    | _ => false)).isEmpty

/-- `AbstractState::release_value` from `abstract_state.rs`. -/
def release_value (s : AbstractState) (v : AbstractValue) : AbstractState :=
  match v with
  | .reference id => { s with borrow_set := s.borrow_set.release id }
  | .nonReference => s

/-- `AbstractState::copy_loc` from `abstract_state.rs`: a reference slot is
copied (`make_copy` with the current mutability); a non-reference slot that
is mutably borrowed fails with `COPYLOC_EXISTS_BORROW_ERROR`; otherwise the
copy is a non-reference. -/
def copy_loc (s : AbstractState) (offset : Nat) (localIdx : Nat) :
    MResult (AbstractState × AbstractValue) :=
  match lookupLocal s.locals localIdx with
  | some id =>
    let (bs, new_id) := s.borrow_set.make_copy () id (s.borrow_set.is_mutable id)
    .ok ({ s with borrow_set := bs }, .reference new_id)
  | none =>
    if s.is_local_mutably_borrowed localIdx then
      .error (s.error .COPYLOC_EXISTS_BORROW_ERROR offset)
    else
      .ok (s, .nonReference)

/-- `AbstractState::comparison` from `abstract_state.rs` (Eq/Neq): with two
reference operands, fail with `READREF_EXISTS_MUTABLE_BORROW_ERROR` when
either is not readable, else release both; with two non-reference operands
produce a value; a mixed pair violates the source's `checked_verify!`. -/
def comparison (s : AbstractState) (offset : Nat) (v1 v2 : AbstractValue) :
    MResult (AbstractState × AbstractValue) :=
  match v1, v2 with
  | .reference id1, .reference id2 =>
    if !s.is_readable id1 none || !s.is_readable id2 none then
      .error (s.error .READREF_EXISTS_MUTABLE_BORROW_ERROR offset)
    else
      .ok ({ s with borrow_set := (s.borrow_set.release id1).release id2 },
           .nonReference)
  | _, _ =>
    if v1.is_value && v2.is_value then .ok (s, .nonReference)
    else .error .panicked

end AbstractState

/-- The reference discriminant of a `SignatureToken` (the only aspect of a
return type the analyzer inspects): a mutable reference, an immutable
reference, or a non-reference type. -/
inductive SToken where
  | mutableReference
  | reference
  | other
deriving DecidableEq, Repr

/-- Insert into a sorted duplicate-free list (`BTreeSet<RefID>` semantics,
used for the argument-reference sets of `call`). -/
def insertSorted (x : Nat) : List Nat → List Nat
  | [] => [x]
  | y :: ys =>
    if x < y then x :: y :: ys
    else if x = y then y :: ys
    else y :: insertSorted x ys

/-- Collect into a sorted duplicate-free list (`collect::<BTreeSet<_>>()`). -/
def sortedDedup (xs : List Nat) : List Nat :=
  xs.foldl (fun acc x => insertSorted x acc) []

namespace AbstractState

/-- The mutable-argument check loop of `AbstractState::call`
(`abstract_state.rs:402-420`): for each mutable argument reference, its
conflicts with the `equal` component restricted to the argument set must be
empty, else `CALL_BORROWED_MUTABLE_REFERENCE_ERROR`; the ids passing the
check are collected (in order) as the `mutable_references_to_borrow_from`
set. -/
def callCheckMutGo (s : AbstractState) (offset : Nat) (all_refs : List Nat) :
    List Nat → MResult (List Nat)
  | [] => .ok []
  | id :: rest =>
    let c := s.borrow_set.borrowed_by id false
    let c := { c with equal := c.equal.filter (fun eid => all_refs.contains eid) }
    if !c.isEmpty then
      .error (s.error .CALL_BORROWED_MUTABLE_REFERENCE_ERROR offset)
    else
      (callCheckMutGo s offset all_refs rest).map (fun m => id :: m)

/-- The return-value creation loop of `AbstractState::call`
(`abstract_state.rs:422-450`), embedded exactly as written: a mutable
reference return extends the checked mutable argument set by a wildcard
`<offset, idx>`; an immutable reference return extends the full argument
reference set by the same wildcard — with the mutability flag `true`, as in
the source; a non-reference return yields `NonReference`. -/
def callReturns (bs : BorrowMap) (offset : Nat) (m all_refs : List Nat) :
    List SToken → Nat → BorrowMap × List AbstractValue
  | [], _ => (bs, [])
  | tok :: rest, idx =>
    match tok with
    | .mutableReference =>
      let (bs1, id) := bs.extend_by_unknown m () true offset idx
      let (bs2, vs) := callReturns bs1 offset m all_refs rest (idx + 1)
      (bs2, .reference id :: vs)
    | .reference =>
      let (bs1, id) := bs.extend_by_unknown all_refs () true offset idx
      let (bs2, vs) := callReturns bs1 offset m all_refs rest (idx + 1)
      (bs2, .reference id :: vs)
    | .other =>
      let (bs2, vs) := callReturns bs offset m all_refs rest (idx + 1)
      (bs2, .nonReference :: vs)

/-- `AbstractState::call` from `abstract_state.rs`: check acquired resources
against live global borrows, check transferability of the mutable argument
references, create the return values, and release every argument
reference. -/
def call (s : AbstractState) (offset : Nat) (arguments : List AbstractValue)
    (acquired_resources : List Nat) (return_ : List SToken) :
    MResult (AbstractState × List AbstractValue) :=
  if acquired_resources.any (fun r => s.is_global_borrowed r) then
    .error (s.error .GLOBAL_REFERENCE_ERROR offset)
  else
    let all_refs := sortedDedup (arguments.filterMap AbstractValue.ref_id)
    match s.callCheckMutGo offset all_refs
        (all_refs.filter (fun id => s.borrow_set.is_mutable id)) with
    | .error e => .error e
    | .ok m =>
      let (bs1, return_values) := callReturns s.borrow_set offset m all_refs return_ 0
      let bs2 := all_refs.foldl (fun b id => b.release id) bs1
      .ok ({ s with borrow_set := bs2 }, return_values)

/-- `AbstractState::join_` from `abstract_state.rs`: rectify the
released-flags of the pinned local references (a reference bound on exactly
one side is released on the other side too), then join the two borrow
sets. -/
def join_ (s other : AbstractState) : AbstractState :=
  let sets := s.locals.foldl
    (fun (acc : BorrowMap × BorrowMap) e =>
      let (self_set, other_set) := acc
      let ref_id := e.2
      match self_set.is_pinned_released ref_id, other_set.is_pinned_released ref_id with
      | false, true => (self_set.release ref_id, other_set)
      | true, false => (self_set, other_set.release ref_id)
      | _, _ => (self_set, other_set))
    (s.borrow_set, other.borrow_set)
  { current_function := s.current_function
    locals := s.locals
    borrow_set := sets.1.join sets.2 }

/-- `impl AbstractDomain for AbstractState::join` from `abstract_state.rs`:
compute the rectified join; return `Unchanged` when the existing pre-state's
borrow set is covered by the joined borrow set, else replace the pre-state by
the joined state and return `Changed`. -/
def joinOp (s other : AbstractState) : JoinResult × AbstractState :=
  let joined := join_ s other
  if s.borrow_set.is_covered_by joined.borrow_set then
    (.unchanged, s)
  else
    (.changed, joined)

end AbstractState

namespace SetRs

/-!
Embedding of the *reference-counted* `BorrowSet` that is live in
`language/borrow-set/src/set.rs` (`new`, `make_copy`, `release`, the queries,
`covers`, `join`).  Its `references`/`paths` companion modules with the
`count`/`ref_start`/`ends_in_star` interface are not among the sources (the
in-source `references.rs`/`paths.rs` carry the pinned/existential interface
of the other variant), so those companions are modelled from the spec on the
data model of §3: a path optionally rooted at a reference identifier, with a
sequence of concrete labels, optionally ending in a wildcard (`.*`).
-/

/-- `Extension` payload of `RightExtendsLeft` in the reference-counted
variant (`set.rs` matches on `Extension::Star` and `Extension::Label`). -/
inductive Extension where
  | star
  | label (l : Label)
deriving DecidableEq, Repr

/-- `Ordering` of path comparisons in the reference-counted variant. -/
inductive SOrdering where
  | incomparable
  | leftExtendsRight
  | equal
  | rightExtendsLeft (ext : Extension)
deriving DecidableEq, Repr

/-- Modelled from the spec: the path type of the reference-counted variant
(its `paths` module is missing from the sources; `set.rs` reads the fields
`ref_start`, `ends_in_star` and constructs with
`BorrowPath::new(loc, ref_start, offsets, ends_in_star)`).  Spec §3: a path
is rooted at a reference identifier or unrooted (rooted at its first label),
carries a sequence of offsets, and may end in a wildcard. -/
structure BorrowPath where
  loc : Unit := ()
  ref_start : Option Nat
  offsets : List Label
  ends_in_star : Bool
deriving DecidableEq, Repr

/-- Modelled from the spec (§4.1, the missing `paths` module of the
reference-counted variant): offset-by-offset comparison once the roots
agree.  A trailing wildcard behaves as the regex `.*`: against a concrete
label it yields `RightExtendsLeft` of the more specific side's next element;
two exhausted sides with matching wildcard status are equal; a bare trailing
wildcard extends the same path without one. -/
def compareOffsets : List Label → List Label → Bool → Bool → SOrdering
  | [], [], ps, qs =>
    match ps, qs with
    | false, false => .equal
    | false, true => .rightExtendsLeft .star
    | true, false => .leftExtendsRight
    | true, true => .equal
  | [], r :: _, _, _ => .rightExtendsLeft (.label r)
  | _ :: _, [], _, qs => if qs then .rightExtendsLeft .star else .leftExtendsRight
  | l :: ls, r :: rs, ps, qs =>
    if l = r then compareOffsets ls rs ps qs else .incomparable

/-- Modelled from the spec (§3/§4.1, missing `paths` module): paths with
different roots are incomparable; with the same root the offsets decide. -/
def BorrowPath.compare (p q : BorrowPath) : SOrdering :=
  if p.ref_start = q.ref_start then
    compareOffsets p.offsets q.offsets p.ends_in_star q.ends_in_star
  else .incomparable

/-- Modelled from the spec (the missing `references` module of the
reference-counted variant; `set.rs` calls `count`, `increment_count`,
`decrement_count`, `into_paths`, `add_path`, `freeze`, `release_parent`): a
reference record with a copy count, a mutability bit, and a path set. -/
structure Ref where
  count : Nat
  mutable : Bool
  paths : List BorrowPath
deriving DecidableEq, Repr

/-- `BTreeSet::insert` on a path set of the reference-counted variant. -/
def insertPath (ps : List BorrowPath) (p : BorrowPath) : List BorrowPath :=
  if p ∈ ps then ps else ps ++ [p]

/-- Modelled from the spec (missing `references` module): a fresh reference
has one copy. -/
def Ref.new (mutable : Bool) (paths : List BorrowPath) : Ref :=
  { count := 1, mutable := mutable, paths := paths }

/-- Modelled from the spec (missing `references` module): `add_path` inserts
into the path set. -/
def Ref.add_path (r : Ref) (p : BorrowPath) : Ref :=
  { r with paths := insertPath r.paths p }

/-- Modelled from the spec (missing `references` module): `release_parent`
re-roots the paths rooted at a removed reference.  Spec §3: a path rooted at
a reference identifier denotes some unknown extension of that reference, so
when the parent disappears each such path is replaced by the parent's paths
with a trailing wildcard (the `updated_paths` that `set.rs::release`
passes). -/
def Ref.release_parent (r : Ref) (id : Nat) (updated : List BorrowPath) : Ref :=
  if r.paths.any (fun p => p.ref_start == some id) then
    { r with
      paths := updated.foldl insertPath
        (r.paths.filter (fun p => p.ref_start != some id)) }
  else r

/-- `QueryFilter` from `set.rs`: an optional candidate mask and an optional
mutability match. -/
structure QueryFilter where
  mask : Option (List Nat)
  mutable : Option Bool
deriving DecidableEq, Repr

/-- `QueryFilter::empty` from `set.rs`. -/
def QueryFilter.empty : QueryFilter :=
  { mask := none, mutable := none }

/-- The `filtered_iter!` predicate from `set.rs`: the reference satisfies the
mutability filter and the candidate mask (absent filters pass). -/
def QueryFilter.keeps (f : QueryFilter) (e : Nat × Ref) : Bool :=
  let satisfies_mutable := (f.mutable.map (fun mf => e.2.mutable == mf)).getD true
  let satisfies_mask := (f.mask.map (fun m => m.contains e.1)).getD true
  satisfies_mutable && satisfies_mask

/-- `BorrowSet` from `set.rs`: the `BTreeMap` from reference id to reference
record, embedded as an association list with unique keys, plus the `next_id`
counter. -/
structure BorrowSet where
  map : List (Nat × Ref)
  next_id : Nat
deriving DecidableEq, Repr

/-- `BTreeMap` key lookup. -/
def lookupRef (m : List (Nat × Ref)) (id : Nat) : Option Ref :=
  (m.find? (fun e => e.1 == id)).map (·.2)

/-- Path set of a reference; empty when the id is absent (the source panics
on a dead id). -/
def pathsOf (s : BorrowSet) (id : Nat) : List BorrowPath :=
  ((lookupRef s.map id).map (·.paths)).getD []

/-- `BorrowSet::add_ref` from `set.rs`: insert under the next id. -/
def BorrowSet.addRef (s : BorrowSet) (r : Ref) : BorrowSet × Nat :=
  ({ map := s.map ++ [(s.next_id, r)], next_id := s.next_id + 1 }, s.next_id)

/-- `BorrowSet::new` from `set.rs`: one reference per initial entry, each
with a single unrooted single-label path; returns the key-to-id map. -/
def BorrowSet.new (initial_refs : List (Nat × Bool × Unit × Label)) :
    BorrowSet × List (Nat × Nat) :=
  initial_refs.foldl
    (fun (acc : BorrowSet × List (Nat × Nat)) entry =>
      let (s, ids) := acc
      let (k, mutable, loc, lbl) := entry
      let (s', id) := s.addRef (Ref.new mutable
        [{ loc := loc, ref_start := none, offsets := [lbl], ends_in_star := false }])
      (s', ids ++ [(k, id)]))
    ({ map := [], next_id := 0 }, [])

/-- `BorrowSet::is_mutable` from `set.rs`. -/
def BorrowSet.is_mutable (s : BorrowSet) (id : Nat) : Bool :=
  ((lookupRef s.map id).map (·.mutable)).getD false

/-- `BorrowSet::make_copy` from `set.rs`: increment the reference's copy
count and return the *same* id. -/
def BorrowSet.make_copy (s : BorrowSet) (id : Nat) : BorrowSet × Nat :=
  ({ s with map := s.map.map (fun e =>
      if e.1 == id then (e.1, { e.2 with count := e.2.count + 1 }) else e) },
   id)

/-- `BorrowSet::extend` from `set.rs`: one path per source, rooted at that
source reference; when there are no sources, a single unrooted path (the
extension comes from a root label).  Exactly one of `ends_in_star` and a
non-empty offset list is allowed (the source's `debug_assert`). -/
def BorrowSet.extend (s : BorrowSet) (sources : List Nat) (loc : Unit) (mutable : Bool)
    (offsets : List Label) (ends_in_star : Bool) : BorrowSet × Nat :=
  let paths := sources.foldl
    (fun ps src => insertPath ps
      { loc := loc, ref_start := some src, offsets := offsets, ends_in_star := ends_in_star })
    []
  let paths :=
    if paths.isEmpty then
      [{ loc := loc, ref_start := none, offsets := offsets, ends_in_star := ends_in_star }]
    else paths
  s.addRef (Ref.new mutable paths)

/-- `BorrowSet::extend_by_labels` from `set.rs`. -/
def BorrowSet.extend_by_labels (s : BorrowSet) (sources : List Nat) (loc : Unit)
    (mutable : Bool) (offsets : List Label) : BorrowSet × Nat :=
  s.extend sources loc mutable offsets false

/-- `BorrowSet::extend_by_unknown` from `set.rs`. -/
def BorrowSet.extend_by_unknown (s : BorrowSet) (sources : List Nat) (loc : Unit)
    (mutable : Bool) : BorrowSet × Nat :=
  s.extend sources loc mutable [] true

/-- `BorrowSet::release` from `set.rs`: with more than one outstanding copy,
only decrement the count; otherwise remove the entry, mark its paths as
ending in a wildcard, and re-root every other reference borrowing through it
(`release_parent`).  A dead id panics in the source; the state is returned
unchanged here. -/
def BorrowSet.release (s : BorrowSet) (id : Nat) : BorrowSet :=
  match lookupRef s.map id with
  | none => s
  | some r =>
    if r.count > 1 then
      { s with map := s.map.map (fun e =>
          if e.1 == id then (e.1, { e.2 with count := e.2.count - 1 }) else e) }
    else
      let updated := r.paths.map (fun p => { p with ends_in_star := true })
      let m := (s.map.filter (fun e => e.1 != id)).map
        (fun e => (e.1, e.2.release_parent id updated))
      { s with map := m }

/-- The classified entries underlying `borrowed_by`/`borrows_from` of
`set.rs`: for each path of `id` and each path of every other filtered
reference, classify the comparison (`path.compare(other_path)` for
conflicts, `other_path.compare(path)` for parents). -/
def BorrowSet.queryEntries (s : BorrowSet) (id : Nat) (filter : QueryFilter)
    (parents : Bool) : List CEntry :=
  let others := s.map.filter (fun e => filter.keeps e && e.1 != id)
  (pathsOf s id).flatMap (fun p =>
    others.flatMap (fun e =>
      e.2.paths.filterMap (fun op =>
        match (if parents then op.compare p else p.compare op) with
        | .equal => some (CEntry.ceq e.1)
        | .rightExtendsLeft .star => some (CEntry.cexist e.1)
        | .rightExtendsLeft (.label l) => some (CEntry.clabeled l e.1)
        | _ => none)))

/-- `BorrowSet::borrowed_by` from `set.rs`. -/
def BorrowSet.borrowed_by (s : BorrowSet) (id : Nat) (filter : QueryFilter) : Conflicts :=
  mkConflicts (s.queryEntries id filter false)

/-- `BorrowSet::borrows_from` from `set.rs`. -/
def BorrowSet.borrows_from (s : BorrowSet) (id : Nat) (filter : QueryFilter) : Parents :=
  mkConflicts (s.queryEntries id filter true)

/-- `BorrowSet::all_starting_with_predicate` from `set.rs`: the references
some of whose paths have a root (reference root, first label) matching the
predicate. -/
def BorrowSet.all_starting_with_predicate (s : BorrowSet)
    (p : Option Nat → Option Label → Bool) : List Nat :=
  (s.map.filter (fun e =>
    e.2.paths.any (fun bp => p bp.ref_start bp.offsets.head?))).map (·.1)

/-- `BorrowSet::all_start_with_ref` from `set.rs`. -/
def BorrowSet.all_start_with_ref (s : BorrowSet) (id : Nat) : List Nat :=
  s.all_starting_with_predicate (fun start_opt _ =>
    (start_opt.map (fun start => id == start)).getD false)

/-- Does some path of `aps` cover `q` (`Equal` or `RightExtendsLeft`)?  The
inner test of `covers` and `join` in `set.rs`. -/
def coversPath (aps : List BorrowPath) (q : BorrowPath) : Bool :=
  aps.any (fun sp =>
    match sp.compare q with
    | .equal => true
    | .rightExtendsLeft _ => true
    | _ => false)

/-- The per-entry loop of `BorrowSet::covers` from `set.rs`, walking the
other set's entries; `none` models the source's panic when the other set
holds an id this set lacks (the consistent-world precondition). -/
def coversGo (am : List (Nat × Ref)) : List (Nat × Ref) → Option Bool
  | [] => some true
  | e :: rest =>
    match lookupRef am e.1 with
    | none => none
    | some selfRef =>
      match coversGo am rest with
      | none => none
      | some b => some (e.2.paths.all (coversPath selfRef.paths) && b)

/-- `BorrowSet::covers` from `set.rs`: every path of `other` is covered by a
path of the same reference in `s`. -/
def BorrowSet.covers (s other : BorrowSet) : Option Bool :=
  coversGo s.map other.map

/-- Add paths to the entry of `id` (`Ref::add_path` under `map.get_mut`). -/
def addPathsTo (m : List (Nat × Ref)) (id : Nat) (ps : List BorrowPath) :
    List (Nat × Ref) :=
  ps.foldl
    (fun acc q => acc.map (fun e => if e.1 == id then (e.1, e.2.add_path q) else e))
    m

/-- The per-entry loop of `BorrowSet::join` from `set.rs`: coverage of each
incoming path is always tested against `s`'s original paths, and uncovered
paths are added to the accumulating joined map; `none` models the panic on a
missing id. -/
def joinGo (am : List (Nat × Ref)) (acc : List (Nat × Ref)) :
    List (Nat × Ref) → Option (List (Nat × Ref))
  | [] => some acc
  | e :: rest =>
    match lookupRef am e.1 with
    | none => none
    | some selfRef =>
      joinGo am
        (addPathsTo acc e.1 (e.2.paths.filter (fun q => !coversPath selfRef.paths q)))
        rest

/-- `BorrowSet::join` from `set.rs`: clone `s`, add every path of `other`
not covered by `s`, then reset `next_id` to the map size
(`set_next_id_after_join`). -/
def BorrowSet.join (s other : BorrowSet) : Option BorrowSet :=
  (joinGo s.map s.map other.map).map (fun m => { map := m, next_id := m.length })

end SetRs

/-- Rust `bool::from_str` (used by `val.parse::<bool>()` in
`code_unit_verifier.rs`): exactly the strings `true` and `false` parse. -/
def parseRustBool (s : String) : Option Bool :=
  if s = "true" then some true
  else if s = "false" then some false
  else none

/-- Rust `usize::from_str` (used by `val.parse::<usize>()` in
`code_unit_verifier.rs`): an optional leading plus sign followed by one or
more decimal digits.  The embedded value is an unbounded `Nat`; a string
overflowing `usize` parses to `Err` in Rust and to a large number here — both
compare unequal to `Ok(1)`/`some 1`, the only use site. -/
def parseRustUsize (str : String) : Option Nat :=
  let chars := str.toList
  let digits := match chars with
                | '+' :: rest => rest
                | _ => chars
  if !digits.isEmpty && digits.all Char.isDigit then
    some (digits.foldl (fun n c => n * 10 + (c.toNat - '0'.toNat)) 0)
  else none

/-- The two reference-safety analyzer variants selected in
`CodeUnitVerifier::verify_common`: the original graph-based
`reference_safety` and the set-based `reference_safety2`. -/
inductive RefSafetyVariant where
  | original
  | setBased
deriving DecidableEq, Repr

/-- The message of the `expect` that `verify_common` evaluates when the
`SET_BASED` environment variable is absent (the Rust text, with its inner
quoting elided). -/
def setBasedEnvMissingMsg : String :=
  "Please set the env SET_BASED to true/1 or false/0. Any non-true setting will be interpreted as false"

/-- The variant-selection prefix of `CodeUnitVerifier::verify_common`
(`code_unit_verifier.rs:89-107`), as a function of the value of the
`SET_BASED` environment variable: an absent variable hits
`std::env::var(..).expect(..)` and panics (embedded as `Except.error` with
the expect message); otherwise the set-based variant runs iff the value
parses as the boolean `true` or the integer `1`. -/
def selectRefSafetyVariant (envVal : Option String) : Except String RefSafetyVariant :=
  match envVal with
  | none => .error setBasedEnvMissingMsg
  | some val =>
    if parseRustBool val == some true || parseRustUsize val == some 1 then
      .ok .setBased
    else
      .ok .original

/-- All reference ids appearing anywhere in a query result. -/
def Conflicts.allIds (c : Conflicts) : List Nat :=
  c.equal ++ c.existential ++ c.labeled.map (·.2)

/-- A state at `Ret` with one live reference rooted at local slot 0 (as
produced by `BorrowLoc(imm, 0)` in a function whose slot 0 holds a
non-reference value): the reference sits on the stack, the locals map has no
reference-typed slots. -/
def frameLocalState : AbstractState :=
  { current_function := some 0
    locals := []
    borrow_set :=
      { map := [(0, { pinned := false, mutable := false,
                      paths := [{ path := [.labeled (.local_ 0)] }] })]
        next_id := 1 } }

/-- The initial state of a function with one immutable-reference parameter
(`&u64`): one pinned immutable reference for slot 0 with the single path
`[Parameter(0)]`. -/
def callImmState : AbstractState :=
  { current_function := some 0
    locals := [(0, 0)]
    borrow_set :=
      { map := [(0, Refs.Ref.mkPinned false (some ((), .parameter 0)))]
        next_id := 1 } }

/-- `callImmState` after `CopyLoc(0)` at offset 0: the copy of the parameter
reference is id 1. -/
def callImmStateCopied : AbstractState :=
  { current_function := some 0
    locals := [(0, 0)]
    borrow_set :=
      { map := [(0, Refs.Ref.mkPinned false (some ((), .parameter 0))),
                (1, { pinned := false, mutable := false,
                      paths := [{ path := [.labeled (.parameter 0)] }] })]
        next_id := 2 } }

/-- `callImmStateCopied` after `Call` at offset 1 passing reference 1 and
returning one immutable reference: the returned reference is id 2, created
over the wildcard extension of the argument path — and carrying, as the
source writes it, the mutable bit `true`. -/
def callImmStateAfter : AbstractState :=
  { current_function := some 0
    locals := [(0, 0)]
    borrow_set :=
      { map := [(0, Refs.Ref.mkPinned false (some ((), .parameter 0))),
                (2, { pinned := false, mutable := true,
                      paths := [{ path := [.labeled (.parameter 0), .existential 1 0] }] })]
        next_id := 3 } }

/-- A state with two references holding the same path `[Local(0)]`, one
mutable (id 0, from `BorrowLoc(mut, 0)`) and one immutable (id 1, from
`BorrowLoc(imm, 0)`). -/
def writableAliasState : AbstractState :=
  { current_function := some 0
    locals := []
    borrow_set :=
      { map := [(0, { pinned := false, mutable := true,
                      paths := [{ path := [.labeled (.local_ 0)] }] }),
                (1, { pinned := false, mutable := false,
                      paths := [{ path := [.labeled (.local_ 0)] }] })]
        next_id := 2 } }

/-- A block pre-state in which the reference-typed local slot 1 (pinned
reference 0) is released (the slot is unbound). -/
def joinPreState : AbstractState :=
  { current_function := some 0
    locals := [(1, 0)]
    borrow_set :=
      { map := [(0, { pinned := true, mutable := true, paths := [] })]
        next_id := 1 } }

/-- An incoming post-state in which the same slot is bound (its pinned
reference holds the path `[Local(0)]`). -/
def joinPostState : AbstractState :=
  { current_function := some 0
    locals := [(1, 0)]
    borrow_set :=
      { map := [(0, { pinned := true, mutable := true,
                      paths := [{ path := [.labeled (.local_ 0)] }] })]
        next_id := 1 } }

/-- A state where local slot 0 holds a non-reference value (no entry in the
locals map) and is mutably borrowed: reference 0 from `BorrowLoc(mut, 0)`. -/
def copyLocBorrowedState : AbstractState :=
  { current_function := some 0
    locals := []
    borrow_set :=
      { map := [(0, { pinned := false, mutable := true,
                      paths := [{ path := [.labeled (.local_ 0)] }] })]
        next_id := 1 } }

/-- A reference-counted borrow set with a single reference (id 0, mutable,
path `[Local(0)]`), as built by `BorrowSet::new`. -/
def rcSet : SetRs.BorrowSet :=
  (SetRs.BorrowSet.new [(0, true, (), .local_ 0)]).1

/-- `rcSet` after `make_copy(0)`: the same id with copy count 2. -/
def rcSetCopied : SetRs.BorrowSet :=
  (rcSet.make_copy 0).1

/-- `rcSetCopied` after `release(0)`: the count drops back to 1 and the id
remains in the set. -/
def rcSetReleased : SetRs.BorrowSet :=
  rcSetCopied.release 0

/-!
## Theorems
-/

namespace Paths
theorem compareGo_equal_symm (l r : List Offset) :
    compareGo l r = .equal ↔ compareGo r l = .equal := by
  induction l generalizing r with
  | nil =>
    cases r with
    | nil => simp
    | cons r rs => simp [compareGo]
  | cons l ls ih =>
    cases r with
    | nil => simp [compareGo]
    | cons r rs =>
      cases l with
      | labeled a =>
        cases r with
        | labeled b =>
          by_cases hab : a = b
          · subst hab; simpa [compareGo] using ih rs
          · simp [compareGo, hab, Ne.symm hab]
        | existential j m => simp [compareGo]
      | existential i n =>
        cases r with
        | labeled b => simp [compareGo]
        | existential j m =>
          by_cases hij : i = j ∧ n = m
          · obtain ⟨h1, h2⟩ := hij
            subst h1; subst h2
            simpa [compareGo] using ih rs
          · have hsym : ¬(j = i ∧ m = n) := fun ⟨h1, h2⟩ => hij ⟨h1.symm, h2.symm⟩
            simp [compareGo, hij, hsym]

theorem compareGo_incomparable_symm (l r : List Offset) :
    compareGo l r = .incomparable ↔ compareGo r l = .incomparable := by
  induction l generalizing r with
  | nil =>
    cases r with
    | nil => simp [compareGo]
    | cons r rs => simp [compareGo]
  | cons l ls ih =>
    cases r with
    | nil => simp [compareGo]
    | cons r rs =>
      cases l with
      | labeled a =>
        cases r with
        | labeled b =>
          by_cases hab : a = b
          · subst hab; simpa [compareGo] using ih rs
          · simp [compareGo, hab, Ne.symm hab]
        | existential j m => simp [compareGo]
      | existential i n =>
        cases r with
        | labeled b => simp [compareGo]
        | existential j m =>
          by_cases hij : i = j ∧ n = m
          · obtain ⟨h1, h2⟩ := hij
            subst h1; subst h2
            simpa [compareGo] using ih rs
          · have hsym : ¬(j = i ∧ m = n) := fun ⟨h1, h2⟩ => hij ⟨h1.symm, h2.symm⟩
            simp [compareGo, hij, hsym]

theorem compareGo_ler_dual (l r : List Offset)
    (h : compareGo l r = .leftExtendsRight) :
    ∃ e, compareGo r l = .rightExtendsLeft e := by
  induction l generalizing r with
  | nil =>
    cases r with
    | nil => simp [compareGo] at h
    | cons r rs => simp [compareGo] at h
  | cons l ls ih =>
    cases r with
    | nil => exact ⟨l, rfl⟩
    | cons r rs =>
      cases l with
      | labeled a =>
        cases r with
        | labeled b =>
          by_cases hab : a = b
          · subst hab
            simp only [compareGo, if_pos rfl] at h ⊢
            exact ih rs h
          · simp [compareGo, hab] at h
        | existential j m => simp [compareGo] at h
      | existential i n =>
        cases r with
        | labeled b => simp [compareGo] at h
        | existential j m =>
          by_cases hij : i = j ∧ n = m
          · obtain ⟨h1, h2⟩ := hij
            subst h1; subst h2
            simp only [compareGo, if_pos (And.intro rfl rfl)] at h ⊢
            exact ih rs h
          · simp [compareGo, hij] at h

end Paths

/-- **C3** (counterexample).  The claimed duality of `compare` fails: with
`p = [Parameter(0), wildcard]` and `q = [Parameter(0), Field(1)]`, both
`compare(p,q)` and `compare(q,p)` are `RightExtendsLeft` (of the respective
right-hand offset at the mismatch), where the claim requires the
`RightExtendsLeft` in one direction to face `LeftExtendsRight` in the
other. -/
theorem compare_dual_counterexample :
    Paths.compare [Offset.labeled (.parameter 0), Offset.existential 0 0]
      [Offset.labeled (.parameter 0), Offset.labeled (.field 1)] =
      .rightExtendsLeft (.labeled (.field 1)) ∧
    Paths.compare [Offset.labeled (.parameter 0), Offset.labeled (.field 1)]
      [Offset.labeled (.parameter 0), Offset.existential 0 0] =
      .rightExtendsLeft (.existential 0 0) ∧
    Paths.compare [Offset.labeled (.parameter 0), Offset.labeled (.field 1)]
      [Offset.labeled (.parameter 0), Offset.existential 0 0] ≠
      .leftExtendsRight := by
  exact ⟨rfl, rfl, by decide⟩

/-- **C3** (amended).  For non-empty paths, `compare` is a total function
into the four cases (so exactly one holds), and the duality holds in this
form: `Equal` and `Incomparable` are symmetric, and `LeftExtendsRight` in
one direction always faces `RightExtendsLeft` in the other; the converse
direction of the last correspondence fails when a wildcard meets a concrete
label mid-path (see the counterexample), where both directions are
`RightExtendsLeft`. -/
theorem compare_duality_amended (p q : List Offset) (hp : p ≠ []) (hq : q ≠ []) :
    (Paths.compare p q = .equal ↔ Paths.compare q p = .equal) ∧
    (Paths.compare p q = .incomparable ↔ Paths.compare q p = .incomparable) ∧
    (Paths.compare p q = .leftExtendsRight →
      ∃ e, Paths.compare q p = .rightExtendsLeft e) := by
  cases p with
  | nil => exact absurd rfl hp
  | cons ph pt =>
    cases q with
    | nil => exact absurd rfl hq
    | cons qh qt =>
      cases ph with
      | labeled a =>
        cases qh with
        | labeled b =>
          simp only [Paths.compare]
          exact ⟨Paths.compareGo_equal_symm _ _, Paths.compareGo_incomparable_symm _ _,
                 Paths.compareGo_ler_dual _ _⟩
        | existential j m =>
          simp [Paths.compare]
      | existential i n =>
        cases qh with
        | labeled b =>
          simp [Paths.compare]
        | existential j m =>
          simp only [Paths.compare]
          exact ⟨Paths.compareGo_equal_symm _ _, Paths.compareGo_incomparable_symm _ _,
                 Paths.compareGo_ler_dual _ _⟩

/-- **C3** (witness): the amended duality at the concrete non-empty paths
`[Parameter(0), Field(1)]` and `[Parameter(0)]`. -/
theorem compare_duality_amended_witness :
    ([Offset.labeled (.parameter 0), Offset.labeled (.field 1)] ≠ ([] : List Offset)) ∧
    ([Offset.labeled (.parameter 0)] ≠ ([] : List Offset)) ∧
    ((Paths.compare [Offset.labeled (.parameter 0), Offset.labeled (.field 1)]
        [Offset.labeled (.parameter 0)] = .equal ↔
      Paths.compare [Offset.labeled (.parameter 0)]
        [Offset.labeled (.parameter 0), Offset.labeled (.field 1)] = .equal) ∧
     (Paths.compare [Offset.labeled (.parameter 0), Offset.labeled (.field 1)]
        [Offset.labeled (.parameter 0)] = .incomparable ↔
      Paths.compare [Offset.labeled (.parameter 0)]
        [Offset.labeled (.parameter 0), Offset.labeled (.field 1)] = .incomparable) ∧
     (Paths.compare [Offset.labeled (.parameter 0), Offset.labeled (.field 1)]
        [Offset.labeled (.parameter 0)] = .leftExtendsRight →
      ∃ e, Paths.compare [Offset.labeled (.parameter 0)]
        [Offset.labeled (.parameter 0), Offset.labeled (.field 1)] =
          .rightExtendsLeft e)) :=
  ⟨by decide, by decide,
   compare_duality_amended _ _ (by decide) (by decide)⟩

/-- **C1** (code bug).  `is_frame_safe_to_destroy` tests for `Global`- or
`Field`-rooted paths, not the `Local`- or `Global`-rooted ones its own doc
comment, its binding name (`local_or_global_rooted_refs`), and the spec
describe: in a state with a live reference rooted at `Local(0)` (which `Ret`
must reject), the predicate still answers `true`. -/
theorem frame_safety_ignores_local_roots :
    frameLocalState.borrow_set.all_starting_with_label (.local_ 0) = [0] ∧
    AbstractState.is_frame_safe_to_destroy frameLocalState = true :=
  ⟨rfl, rfl⟩

/-- **C2** (code bug).  A `Call` returning one immutable reference: the
returned reference (id 2) is created by `extend_by_unknown` over the full
argument set, but — as the source writes the `SignatureToken::Reference`
arm — with the mutability flag `true`, so the abstract state records the
immutable-typed return as a *mutable* reference. -/
theorem call_imm_return_created_mutable :
    AbstractState.copy_loc callImmState 0 0 = .ok (callImmStateCopied, .reference 1) ∧
    AbstractState.call callImmStateCopied 1 [.reference 1] [] [.reference] =
      .ok (callImmStateAfter, [.reference 2]) ∧
    callImmStateAfter.borrow_set.is_mutable 2 = true :=
  ⟨rfl, rfl, rfl⟩

/-- **C4** (counterexample).  In a state with a mutable reference 0 and an
immutable reference 1 holding the *same* path `[Local(0)]`, `borrowed_by(0)`
has empty `existential` and empty `labeled` components — the claim then
requires `is_writable(0)` to be `true` — yet the source also rejects
immutable equal aliases and answers `false`. -/
theorem is_writable_imm_equal_counterexample :
    writableAliasState.borrow_set.is_mutable 0 = true ∧
    (writableAliasState.borrow_set.borrowed_by 0 false).existential = [] ∧
    (writableAliasState.borrow_set.borrowed_by 0 false).labeled = [] ∧
    AbstractState.is_writable writableAliasState 0 = false :=
  ⟨rfl, rfl, rfl, rfl⟩

/-- **C4** (amended).  Under the precondition `is_mutable(id)`:
`is_writable(id)` is true iff `borrowed_by(id)` with no filter has an empty
`existential` component, an empty `labeled` component, *and* no immutable
reference among the `equal` conflicts — mutable equal aliases alone never
make a reference non-writable. -/
theorem is_writable_characterization (s : AbstractState) (id : Nat)
    (h : s.borrow_set.is_mutable id = true) :
    AbstractState.is_writable s id = true ↔
      ((s.borrow_set.borrowed_by id false).existential = [] ∧
       (s.borrow_set.borrowed_by id false).labeled = [] ∧
       ∀ eid ∈ (s.borrow_set.borrowed_by id false).equal,
         s.borrow_set.is_mutable eid = true) := by
  unfold AbstractState.is_writable
  simp only [Bool.and_eq_true, Bool.not_eq_true', Bool.or_eq_false_iff,
    Bool.not_eq_false', List.isEmpty_eq_true, List.any_eq_false, Bool.not_eq_true]
  constructor
  · rintro ⟨h1, h2, h3⟩
    exact ⟨h2, h3, fun eid hm => by simpa using h1 eid hm⟩
  · rintro ⟨h1, h2, h3⟩
    exact ⟨fun eid hm => by simpa using h3 eid hm, h1, h2⟩

/-- **C4** (witness): the amended characterization evaluated at
`writableAliasState` and reference 0. -/
theorem is_writable_characterization_witness :
    writableAliasState.borrow_set.is_mutable 0 = true ∧
    (AbstractState.is_writable writableAliasState 0 = true ↔
      ((writableAliasState.borrow_set.borrowed_by 0 false).existential = [] ∧
       (writableAliasState.borrow_set.borrowed_by 0 false).labeled = [] ∧
       ∀ eid ∈ (writableAliasState.borrow_set.borrowed_by 0 false).equal,
         writableAliasState.borrow_set.is_mutable eid = true)) :=
  ⟨by decide, is_writable_characterization writableAliasState 0 (by decide)⟩

/-- **C5** (counterexample).  Pre-state: the reference-typed local slot is
*released*; incoming post-state: the same slot is *bound*.  The rectification
step releases it on the incoming side — a released-flag change, on which the
claim requires `Changed` — yet the driver returns `Unchanged`. -/
theorem join_unchanged_despite_rectification :
    BorrowMap.is_pinned_released joinPreState.borrow_set 0 = true ∧
    BorrowMap.is_pinned_released joinPostState.borrow_set 0 = false ∧
    (AbstractState.joinOp joinPreState joinPostState).1 = .unchanged :=
  ⟨rfl, rfl, rfl⟩

/-- **C5** (amended).  The driver returns `Unchanged` iff the existing
pre-state borrow set is covered by the joined borrow set (note the
direction: the joined set is the more permissive side of the test, and
released-flag changes confined to the incoming side do not force `Changed`);
on `Unchanged` the pre-state is kept, on `Changed` it is replaced by the
joined state. -/
theorem join_unchanged_iff_covered (s other : AbstractState)
    (h1 : s.current_function = other.current_function)
    (h2 : s.locals = other.locals) :
    ((AbstractState.joinOp s other).1 = .unchanged ↔
      BorrowMap.covers (AbstractState.join_ s other).borrow_set s.borrow_set = true) ∧
    ((AbstractState.joinOp s other).1 = .unchanged →
      (AbstractState.joinOp s other).2 = s) ∧
    ((AbstractState.joinOp s other).1 = .changed →
      (AbstractState.joinOp s other).2 = AbstractState.join_ s other) := by
  unfold AbstractState.joinOp BorrowMap.is_covered_by
  cases hcov : BorrowMap.covers (AbstractState.join_ s other).borrow_set s.borrow_set <;>
    simp [hcov]

/-- **C5** (witness): the amended join characterization at the concrete
pre/post pair. -/
theorem join_unchanged_iff_covered_witness :
    joinPreState.current_function = joinPostState.current_function ∧
    joinPreState.locals = joinPostState.locals ∧
    (((AbstractState.joinOp joinPreState joinPostState).1 = .unchanged ↔
      BorrowMap.covers (AbstractState.join_ joinPreState joinPostState).borrow_set
        joinPreState.borrow_set = true) ∧
     ((AbstractState.joinOp joinPreState joinPostState).1 = .unchanged →
      (AbstractState.joinOp joinPreState joinPostState).2 = joinPreState) ∧
     ((AbstractState.joinOp joinPreState joinPostState).1 = .changed →
      (AbstractState.joinOp joinPreState joinPostState).2 =
        AbstractState.join_ joinPreState joinPostState)) :=
  ⟨rfl, rfl, join_unchanged_iff_covered joinPreState joinPostState rfl rfl⟩

/-- **C6** (counterexample).  In the set-based analyzer, `CopyLoc` on a
non-reference slot that is mutably borrowed *does* fail with
`COPYLOC_EXISTS_BORROW_ERROR` (the claim says it succeeds with
`NonReference` and never raises this error). -/
theorem copy_loc_borrowed_errors :
    AbstractState.is_local_mutably_borrowed copyLocBorrowedState 0 = true ∧
    AbstractState.copy_loc copyLocBorrowedState 7 0 =
      .error (.vmError .COPYLOC_EXISTS_BORROW_ERROR 0 7) :=
  ⟨rfl, rfl⟩

/-- **C6** (amended).  `CopyLoc(i)` on a non-reference local slot (no entry
in the locals map) fails with `COPYLOC_EXISTS_BORROW_ERROR` exactly when the
local is mutably borrowed, and otherwise succeeds with `NonReference` — the
set-based variant keeps the strict policy. -/
theorem copy_loc_nonref_characterization (s : AbstractState) (offset i : Nat)
    (h : AbstractState.lookupLocal s.locals i = none) :
    AbstractState.copy_loc s offset i =
      (if s.is_local_mutably_borrowed i then
        .error (s.error .COPYLOC_EXISTS_BORROW_ERROR offset)
      else .ok (s, .nonReference)) := by
  unfold AbstractState.copy_loc
  rw [h]

/-- **C6** (witness): the amended `CopyLoc` characterization at the
mutably-borrowed non-reference slot of `copyLocBorrowedState`. -/
theorem copy_loc_nonref_characterization_witness :
    AbstractState.lookupLocal copyLocBorrowedState.locals 0 = none ∧
    AbstractState.copy_loc copyLocBorrowedState 7 0 =
      (if copyLocBorrowedState.is_local_mutably_borrowed 0 then
        .error (copyLocBorrowedState.error .COPYLOC_EXISTS_BORROW_ERROR 7)
      else .ok (copyLocBorrowedState, .nonReference)) :=
  ⟨rfl, copy_loc_nonref_characterization copyLocBorrowedState 7 0 rfl⟩

/-- Every id a query entry carries belongs to a reference in the queried
borrow set (the entries are drawn from the filtered map iteration). -/
theorem mem_queryEntries_keys (s : SetRs.BorrowSet) (qid : Nat)
    (f : SetRs.QueryFilter) (b : Bool) (t : CEntry)
    (ht : t ∈ s.queryEntries qid f b) :
    ∃ e ∈ s.map, e.1 = t.cid := by
  unfold SetRs.BorrowSet.queryEntries at ht
  simp only [List.mem_flatMap, List.mem_filterMap] at ht
  obtain ⟨p, _, e, he, op, _, hmatch⟩ := ht
  have he' := (List.mem_filter.1 he).1
  refine ⟨e, he', ?_⟩
  cases hm : (if b then op.compare p else SetRs.BorrowPath.compare p op) with
  | incomparable => rw [hm] at hmatch; simp at hmatch
  | leftExtendsRight => rw [hm] at hmatch; simp at hmatch
  | equal =>
    rw [hm] at hmatch
    simp only [Option.some.injEq] at hmatch
    subst hmatch; rfl
  | rightExtendsLeft ext =>
    cases ext with
    | star =>
      rw [hm] at hmatch
      simp only [Option.some.injEq] at hmatch
      subst hmatch; rfl
    | label l =>
      rw [hm] at hmatch
      simp only [Option.some.injEq] at hmatch
      subst hmatch; rfl

/-- Every id appearing in an assembled `Conflicts` record comes from one of
the underlying entries. -/
theorem mem_mkConflicts_allIds (es : List CEntry) (x : Nat)
    (hx : x ∈ (mkConflicts es).allIds) : ∃ t ∈ es, t.cid = x := by
  unfold mkConflicts Conflicts.allIds at hx
  simp only [List.mem_append, List.mem_filterMap, List.mem_map] at hx
  rcases hx with (⟨t, ht, hm⟩ | ⟨t, ht, hm⟩) | ⟨pr, ⟨t, ht, hm⟩, hpr⟩
  · refine ⟨t, ht, ?_⟩
    cases t <;> simp_all [CEntry.cid]
  · refine ⟨t, ht, ?_⟩
    cases t <;> simp_all [CEntry.cid]
  · refine ⟨t, ht, ?_⟩
    cases t with
    | ceq i => simp at hm
    | cexist i => simp at hm
    | clabeled l i =>
      simp only [Option.some.injEq] at hm
      rw [← hm] at hpr
      exact hpr

/-- `find?` misses a key absent from every entry. -/
theorem lookupRef_eq_none_of_keys (m : List (Nat × SetRs.Ref)) (id : Nat)
    (h : ∀ e ∈ m, e.1 ≠ id) : SetRs.lookupRef m id = none := by
  unfold SetRs.lookupRef
  have : m.find? (fun e => e.1 == id) = none := by
    rw [List.find?_eq_none]
    intro e he
    simpa using h e he
  rw [this]
  rfl

/-- After releasing the last copy of a reference, no entry of the resulting
map carries its id. -/
theorem release_removes_key (s : SetRs.BorrowSet) (id : Nat) (r : SetRs.Ref)
    (h : SetRs.lookupRef s.map id = some r) (hc : r.count = 1) :
    ∀ e ∈ (s.release id).map, e.1 ≠ id := by
  unfold SetRs.BorrowSet.release
  rw [h]
  have hgt : ¬r.count > 1 := by omega
  simp only [hgt, if_false]
  intro e he
  simp only [List.mem_map] at he
  obtain ⟨e0, he0, rfl⟩ := he
  have := (List.mem_filter.1 he0).2
  simpa using this

/-- **C7** (counterexample).  In the reference-counted `set.rs`, `make_copy`
bumps the copy count of the *same* id, so after `release(0)` on the copied
reference the id is still in the set — and a subsequent query
(`all_starting_with_predicate` for paths rooted at `Local(0)`) still returns
it.  (No reference of this variant is pinned; the pinned lifecycle of the
claim does not exist in this code.) -/
theorem release_copied_id_remains :
    (SetRs.lookupRef rcSetReleased.map 0).isSome = true ∧
    rcSetReleased.all_starting_with_predicate
      (fun _ lbl => lbl == some (.local_ 0)) = [0] :=
  ⟨rfl, rfl⟩

/-- **C7** (amended).  `release(id)` on a reference with *no outstanding
copies* (copy count 1) removes the id: it is absent from the map, and no
subsequent query — `borrowed_by`, `borrows_from`, or
`all_starting_with_predicate` — returns it.  With outstanding copies
(count > 1) the release only decrements the count and the id remains. -/
theorem release_last_copy_removes (s : SetRs.BorrowSet) (id : Nat) (r : SetRs.Ref)
    (h : SetRs.lookupRef s.map id = some r) (hc : r.count = 1) :
    SetRs.lookupRef (s.release id).map id = none ∧
    (∀ qid f, id ∉ ((s.release id).borrowed_by qid f).allIds) ∧
    (∀ qid f, id ∉ ((s.release id).borrows_from qid f).allIds) ∧
    (∀ p, id ∉ (s.release id).all_starting_with_predicate p) := by
  have hkeys := release_removes_key s id r h hc
  refine ⟨lookupRef_eq_none_of_keys _ _ hkeys, ?_, ?_, ?_⟩
  · intro qid f hmem
    obtain ⟨t, ht, hcid⟩ := mem_mkConflicts_allIds _ _ hmem
    obtain ⟨e, he, hid⟩ := mem_queryEntries_keys _ qid f false t ht
    exact hkeys e he (hid.trans hcid)
  · intro qid f hmem
    obtain ⟨t, ht, hcid⟩ := mem_mkConflicts_allIds _ _ hmem
    obtain ⟨e, he, hid⟩ := mem_queryEntries_keys _ qid f true t ht
    exact hkeys e he (hid.trans hcid)
  · intro p hmem
    unfold SetRs.BorrowSet.all_starting_with_predicate at hmem
    simp only [List.mem_map] at hmem
    obtain ⟨e, he, hid⟩ := hmem
    exact hkeys e (List.mem_of_mem_filter he) hid

/-- **C7** (witness): releasing the single-copy reference 0 of `rcSet`
removes it and excludes it from every query. -/
theorem release_last_copy_removes_witness :
    SetRs.lookupRef rcSet.map 0 =
      some (SetRs.Ref.new true
        [{ loc := (), ref_start := none, offsets := [.local_ 0], ends_in_star := false }]) ∧
    (SetRs.Ref.new true
      [{ loc := (), ref_start := none, offsets := [.local_ 0], ends_in_star := false }]).count = 1 ∧
    (SetRs.lookupRef (rcSet.release 0).map 0 = none ∧
     (∀ qid f, 0 ∉ ((rcSet.release 0).borrowed_by qid f).allIds) ∧
     (∀ qid f, 0 ∉ ((rcSet.release 0).borrows_from qid f).allIds) ∧
     (∀ p, 0 ∉ (rcSet.release 0).all_starting_with_predicate p)) :=
  ⟨rfl, rfl, release_last_copy_removes rcSet 0 _ rfl rfl⟩

/-- A path set fully covered by `aps` contributes nothing uncovered. -/
theorem filter_not_coversPath_eq_nil (aps : List SetRs.BorrowPath)
    (ps : List SetRs.BorrowPath) (h : ps.all (SetRs.coversPath aps) = true) :
    ps.filter (fun q => !SetRs.coversPath aps q) = [] := by
  rw [List.filter_eq_nil_iff]
  intro q hq
  have := (List.all_eq_true.1 h) q hq
  simp [this]

/-- The join loop adds nothing when every incoming entry is covered. -/
theorem joinGo_of_coversGo (am : List (Nat × SetRs.Ref)) :
    ∀ (bm : List (Nat × SetRs.Ref)) (acc : List (Nat × SetRs.Ref)),
      SetRs.coversGo am bm = some true → SetRs.joinGo am acc bm = some acc := by
  intro bm
  induction bm with
  | nil => intro acc _; rfl
  | cons e rest ih =>
    intro acc hcov
    simp only [SetRs.coversGo] at hcov
    cases hl : SetRs.lookupRef am e.1 with
    | none => simp [hl] at hcov
    | some selfRef =>
      simp only [hl] at hcov
      cases hrest : SetRs.coversGo am rest with
      | none => simp [hrest] at hcov
      | some b =>
        simp only [hrest, Option.some.injEq, Bool.and_eq_true] at hcov
        simp only [SetRs.joinGo, hl,
          filter_not_coversPath_eq_nil selfRef.paths e.2.paths hcov.1,
          SetRs.addPathsTo, List.foldl_nil]
        have hb : b = true := hcov.2
        subst hb
        exact ih acc hrest

/-- **C8** (confirmed).  When `A.covers(B)` succeeds, `A.join(B)` adds no
path: the joined map equals the map of `A` (with `next_id` reset to the map
size by `set_next_id_after_join`). -/
theorem join_absorbs_covers (A B : SetRs.BorrowSet)
    (h : SetRs.BorrowSet.covers A B = some true) :
    SetRs.BorrowSet.join A B = some { map := A.map, next_id := A.map.length } := by
  unfold SetRs.BorrowSet.join
  unfold SetRs.BorrowSet.covers at h
  rw [joinGo_of_coversGo A.map B.map A.map h]
  rfl

/-- **C8** (witness): the absorption at the concrete single-reference set
`rcSet`, which covers itself. -/
theorem join_absorbs_covers_witness :
    SetRs.BorrowSet.covers rcSet rcSet = some true ∧
    SetRs.BorrowSet.join rcSet rcSet =
      some { map := rcSet.map, next_id := rcSet.map.length } :=
  ⟨rfl, join_absorbs_covers rcSet rcSet rfl⟩

/-- **C9** (counterexample).  With the `SET_BASED` environment variable
absent, `verify_common` panics through `expect` before any verification
runs — there is no defaulted variant and no normal result. -/
theorem selector_absent_aborts :
    selectRefSafetyVariant none = .error setBasedEnvMissingMsg :=
  rfl

/-- **C9** (amended).  When the toggle is absent the verifier aborts (the
`expect` panic) instead of defaulting; when it is present, verification
proceeds with the set-based variant iff the value parses as the boolean
`true` or the integer `1`, and with the original variant otherwise. -/
theorem selector_characterization :
    selectRefSafetyVariant none = .error setBasedEnvMissingMsg ∧
    ∀ v : String,
      selectRefSafetyVariant (some v) =
        .ok (if parseRustBool v == some true || parseRustUsize v == some 1 then
          .setBased
        else .original) :=
  ⟨rfl, fun v => by
    cases h : (parseRustBool v == some true || parseRustUsize v == some 1) <;>
      simp [selectRefSafetyVariant, h]⟩

/-- **C10** (confirmed).  `Eq`/`Neq` on two reference operands: when either
reference is not readable the transfer function fails with
`READREF_EXISTS_MUTABLE_BORROW_ERROR` and releases neither operand (the
error result carries no successor state, so the pre-state stands); otherwise
it releases both references and produces `NonReference`.  A mutable
reference is unreadable precisely when it has a live mutable extension
(non-empty mutable `existential` or `labeled` conflicts). -/
theorem comparison_characterization (s : AbstractState) (offset id1 id2 : Nat) :
    (AbstractState.comparison s offset (.reference id1) (.reference id2) =
      if s.is_readable id1 none && s.is_readable id2 none then
        .ok ({ s with borrow_set := (s.borrow_set.release id1).release id2 },
             .nonReference)
      else .error (s.error .READREF_EXISTS_MUTABLE_BORROW_ERROR offset)) ∧
    (∀ id, s.is_readable id none = false ↔
      (s.borrow_set.is_mutable id = true ∧
        ¬((s.borrow_set.borrowed_by id true).existential = [] ∧
          (s.borrow_set.borrowed_by id true).labeled = []))) := by
  constructor
  · unfold AbstractState.comparison
    cases h1 : s.is_readable id1 none <;> cases h2 : s.is_readable id2 none <;>
      simp [h1, h2]
  · intro id
    unfold AbstractState.is_readable
    cases hm : s.borrow_set.is_mutable id
    · simp [hm]
    · simp [hm, Bool.and_eq_false_iff, List.isEmpty_eq_false, not_and_or,
        List.isEmpty_eq_true]
